import Mathlib

set_option autoImplicit false

/-!
Shallow embedding of `src/upload_to_gcs.py`, a Streamlit form that uploads
files (expanding zip archives) into a Google Cloud Storage bucket, creating
the bucket when absent.

Modelling conventions:
* byte strings are `List Nat`;
* the external calls (bucket existence check, bucket creation, object
  upload) are parameterised by a `GcsConfig` telling which calls succeed;
* the zip codec is abstracted: an `UploadedItem` carries the outcome that
  `zipfile.ZipFile(...).extractall` has on its bytes (`none` = the
  extraction raises, `some entries` = the files it writes);
* effects are threaded explicitly through a `Trace` (remote calls made,
  status lines shown, temporary paths left behind), and an uncaught Python
  exception is an `Except.error` outcome;
* `st.success` / `st.info` / `st.write` / `st.error` lines are recorded as
  `Msg` values; quote punctuation and the interpolated exception text of the
  Python f-strings are omitted from the recorded message strings, since no
  property stated below depends on them.
-/

namespace UploadToGcs

/-- Byte strings are modelled as lists of naturals, one per byte. -/
abbrev Bytes := List Nat

/-- Whether a string starts with the path separator. -/
def startsWithSlash (s : String) : Bool :=
  s.data.head? = some '/'

/-- Whether a string ends with the path separator. -/
def endsWithSlash (s : String) : Bool :=
  s.data.getLast? = some '/'

/-- Model of `os.path.join` (POSIX, two components), as in `posixpath.join`:
an absolute second component replaces the first; otherwise a separator is
inserted unless the first component is empty or already ends with one. -/
def pyJoin (a b : String) : String :=
  if startsWithSlash b then b
  else if a == "" || endsWithSlash a then a ++ b
  else a ++ "/" ++ b

/-- `os.path.join` with three components folds `pyJoin` from the left. -/
def pyJoin3 (a b c : String) : String :=
  pyJoin (pyJoin a b) c

/-- Model of `os.path.splitext` (POSIX) on a character list: split off the
extension starting at the last dot of the final path component, except that
a component consisting only of leading dots before that dot (such as
`.bashrc`) has no extension. -/
def pySplitextList (s : List Char) : List Char × List Char :=
  let baseRev := s.reverse.takeWhile (fun c => c ≠ '/')
  if baseRev.contains '.' then
    let tailRev := baseRev.takeWhile (fun c => c ≠ '.')
    let stemRev := baseRev.drop (tailRev.length + 1)
    if stemRev.any (fun c => c ≠ '.') then
      (s.take (s.length - tailRev.length - 1), '.' :: tailRev.reverse)
    else (s, [])
  else (s, [])

/-- `os.path.splitext` on strings: root and extension. -/
def pySplitextStr (s : String) : String × String :=
  let p := pySplitextList s.data
  (String.mk p.1, String.mk p.2)

/-- Line 29: `os.path.splitext(filename)[1].lower()`, the lowercased
extension used to select the zip branch. -/
def extLower (filename : String) : String :=
  String.mk (((pySplitextStr filename).2).data.map Char.toLower)

/-- An uploaded item: its filename, its raw bytes, and the outcome that
`zipfile.ZipFile(...).extractall` would have on those bytes (abstracting the
external zip codec): `none` models an extraction exception (corrupt
archive), `some entries` models successful extraction writing the given
(relative path, bytes) files. -/
structure UploadedItem where
  name : String
  content : Bytes
  extracted : Option (List (String × Bytes))
deriving DecidableEq

/-- User-visible status lines (`st.success`, `st.info`, `st.write`,
`st.error`). -/
inductive Msg where
  | success (text : String)
  | info (text : String)
  | write (text : String)
  | error (text : String)
deriving DecidableEq

/-- Python exceptions that can escape the functions under study: a failure
of the bucket existence check or creation call, and a failure of an
individual object upload. -/
inductive PyExn where
  | bucketError
  | transferError
deriving DecidableEq

/-- A bucket handle; its identity is its name. -/
structure Bucket where
  name : String
deriving DecidableEq

/-- Environment for the remote calls: whether the existence-check call
itself succeeds, what it reports when it does, whether `create_bucket`
succeeds, and whether `upload_from_filename` to a given destination key
succeeds. -/
structure GcsConfig where
  existsCheckOk : Bool
  bucketExists : Bool
  createOk : Bool
  uploadOk : String → Bool

/-- Observable effects of one invocation: how many bucket existence checks
were attempted, which bucket names were passed to `create_bucket`, the
successful (key, bytes) object uploads in order, the status lines shown,
and the local temporary paths still present when the invocation ends. -/
structure Trace where
  existsChecks : Nat
  creates : List String
  uploads : List (String × Bytes)
  msgs : List Msg
  leakedTemps : List String
deriving DecidableEq

/-- The trace at the start of an invocation. -/
def emptyTrace : Trace :=
  ⟨0, [], [], [], []⟩

/-- Lines 8 to 19: `bucket.exists()` is one remote check (raising a bucket
error when the call fails); when the bucket is absent, `create_bucket` is
called (raising on failure) and a success line is shown, otherwise an info
line is shown; the bucket handle is returned. -/
def create_bucket_if_not_exists (cfg : GcsConfig) (bucket_name : String) (t : Trace) :
    Trace × Except PyExn Bucket :=
  let t1 := { t with existsChecks := t.existsChecks + 1 }
  if cfg.existsCheckOk = false then (t1, .error .bucketError)
  else if cfg.bucketExists then
    ({ t1 with msgs := t1.msgs ++ [.info ("Bucket " ++ bucket_name ++ " already exists.")] },
      .ok ⟨bucket_name⟩)
  else
    let t2 := { t1 with creates := t1.creates ++ [bucket_name] }
    if cfg.createOk = false then (t2, .error .bucketError)
    else
      ({ t2 with msgs := t2.msgs ++ [.success ("Bucket " ++ bucket_name ++ " created.")] },
        .ok ⟨bucket_name⟩)

/-- Writing a file at a relative path inside the temporary directory: an
existing file at the same path is overwritten in place, a new path is
appended. This fixes one concrete enumeration order for the later
`os.walk`, whose order is implementation defined and not relied upon. -/
def upsert (k : String) (v : Bytes) : List (String × Bytes) → List (String × Bytes)
  | [] => [(k, v)]
  | (k2, v2) :: rest => if k2 = k then (k, v) :: rest else (k2, v2) :: upsert k v rest

/-- Lines 34 to 40: contents of the temporary directory (as relative path
to bytes pairs) after saving the uploaded archive under its own filename
inside the directory and then extracting all entries into the same
directory; extraction overwrites files at equal paths. Since keys are paths
relative to the directory root, `os.path.relpath` of a walked file is the
key itself. -/
def dirAfterExtract (item : UploadedItem) (entries : List (String × Bytes)) :
    List (String × Bytes) :=
  entries.foldl (fun d e => upsert e.1 e.2 d) [(item.name, item.content)]

/-- Lines 43 to 51: walk the files of the temporary directory, uploading
each to key `os.path.join(destination_folder, splitext(filename)[0],
relative_path)` and showing a line per upload; a failing upload raises a
transfer error out of the walk. -/
def walkUploads (cfg : GcsConfig) (bucket_name destination_folder filename : String) :
    List (String × Bytes) → Trace → Trace × Except PyExn Unit
  | [], t => (t, .ok ())
  | (rel, bytes) :: rest, t =>
    let blob_path := pyJoin3 destination_folder (pySplitextStr filename).1 rel
    if cfg.uploadOk blob_path then
      walkUploads cfg bucket_name destination_folder filename rest
        { t with
          uploads := t.uploads ++ [(blob_path, bytes)],
          msgs := t.msgs ++
            [.write ("Uploaded " ++ blob_path ++ " to GCS bucket " ++ bucket_name)] }
    else (t, .error .transferError)

/-- Lines 30 to 53, the zip branch: inside a `TemporaryDirectory` (removed
on every exit path, so it never contributes leaked temporaries), save the
archive, extract it, then walk and upload. Every exception raised inside
the try block (an extraction failure, or a transfer failure during the
walk) is caught by the except clause, which shows one item-level error
line; the branch itself never raises. -/
def processZipItem (cfg : GcsConfig) (bucket_name destination_folder : String)
    (item : UploadedItem) (t : Trace) : Trace :=
  match item.extracted with
  | none => { t with msgs := t.msgs ++ [.error ("Error processing zip file " ++ item.name)] }
  | some entries =>
    match walkUploads cfg bucket_name destination_folder item.name
        (dirAfterExtract item entries) t with
    | (t2, .ok _) => t2
    | (t2, .error _) =>
      { t2 with msgs := t2.msgs ++ [.error ("Error processing zip file " ++ item.name)] }

/-- Lines 54 to 63, the non-zip branch: `NamedTemporaryFile(delete=False)`
creates `tempName` holding the item bytes; on upload success a line is
shown and `os.unlink` removes the file. When the upload raises, `os.unlink`
is never reached and, because of `delete=False`, leaving the with block
keeps the file: it stays on local storage while the transfer error
propagates. -/
def processPlainItem (cfg : GcsConfig) (bucket_name destination_folder : String)
    (item : UploadedItem) (tempName : String) (t : Trace) : Trace × Except PyExn Unit :=
  let blob_path := pyJoin destination_folder item.name
  if cfg.uploadOk blob_path then
    ({ t with
        uploads := t.uploads ++ [(blob_path, item.content)],
        msgs := t.msgs ++
          [.write ("Uploaded " ++ blob_path ++ " to GCS bucket " ++ bucket_name)] },
      .ok ())
  else
    ({ t with leakedTemps := t.leakedTemps ++ [tempName] }, .error .transferError)

/-- Lines 27 to 63: process the uploaded items in order; the counter `i`
names the anonymous temporary file used by the non-zip branch of the i-th
item. A zip item never raises; a non-zip item whose upload raises aborts
the loop. -/
def uploadLoop (cfg : GcsConfig) (bucket_name destination_folder : String) :
    List UploadedItem → Nat → Trace → Trace × Except PyExn Unit
  | [], _, t => (t, .ok ())
  | item :: rest, i, t =>
    if extLower item.name = ".zip" then
      uploadLoop cfg bucket_name destination_folder rest (i + 1)
        (processZipItem cfg bucket_name destination_folder item t)
    else
      match processPlainItem cfg bucket_name destination_folder item
          ("tmp" ++ toString i) t with
      | (t2, .ok _) => uploadLoop cfg bucket_name destination_folder rest (i + 1) t2
      | (t2, .error e) => (t2, .error e)

/-- Lines 21 to 63: ensure the bucket exists (a bucket error aborts before
any item is touched), then run the item loop. -/
def upload_files_to_gcs (cfg : GcsConfig) (bucket_name : String)
    (uploaded_files : List UploadedItem) (destination_folder : String) :
    Trace × Except PyExn Unit :=
  match create_bucket_if_not_exists cfg bucket_name emptyTrace with
  | (t, .error e) => (t, .error e)
  | (t, .ok _) => uploadLoop cfg bucket_name destination_folder uploaded_files 0 t

/-- Line 76: replace every occurrence of the two character sequence
backslash `n` by a newline character, scanning left to right without
overlap, exactly as `str.replace` does for this two character pattern. -/
def normalizeNewlines : List Char → List Char
  | [] => []
  | [c] => [c]
  | c :: d :: rest =>
    if c = '\\' ∧ d = 'n' then '\n' :: normalizeNewlines rest
    else c :: normalizeNewlines (d :: rest)

/-- The service account credential record: the private key field (a string,
so the `isinstance` guard on line 75 holds) plus the remaining fields,
treated as an opaque pass-through association list. -/
structure CredRecord where
  private_key : String
  others : List (String × String)
deriving DecidableEq

/-- Lines 74 to 78: before the client identity is constructed, the private
key field has every literal backslash `n` escape rewritten to a line break;
nothing else about the record changes. -/
def fix_private_key (c : CredRecord) : CredRecord :=
  { c with private_key := String.mk (normalizeNewlines c.private_key.data) }

/-- Lines 86 to 94: the Upload button handler of `main`. An empty bucket
name or an empty file selection shows one error line and performs no remote
call at all; otherwise the pipeline runs and, when it returns normally, a
completion line is shown. -/
def main (cfg : GcsConfig) (bucket_name destination_folder : String)
    (uploaded_files : List UploadedItem) : Trace × Except PyExn Unit :=
  if bucket_name = "" then
    ({ emptyTrace with msgs := [.error "Please enter a bucket name."] }, .ok ())
  else if uploaded_files = [] then
    ({ emptyTrace with msgs := [.error "Please select files to upload."] }, .ok ())
  else
    match upload_files_to_gcs cfg bucket_name uploaded_files destination_folder with
    | (t, .ok _) => ({ t with msgs := t.msgs ++ [.success "File upload complete."] }, .ok ())
    | (t, .error e) => (t, .error e)

/-- A configuration in which the bucket existence check call itself
fails. -/
def cfgCheckFails : GcsConfig :=
  ⟨false, false, false, fun _ => true⟩

/-- A configuration in which every remote call succeeds and the bucket is
initially absent. -/
def cfgAllOk : GcsConfig :=
  ⟨true, false, true, fun _ => true⟩

/-- A configuration in which the bucket calls succeed, the bucket is
present, and every object upload fails. -/
def cfgUploadsFail : GcsConfig :=
  ⟨true, true, true, fun _ => false⟩

/-- A configuration in which the bucket calls succeed, the bucket is
present, and exactly the uploads whose destination key starts with the two
characters `a/` fail. -/
def cfgFailUnderA : GcsConfig :=
  ⟨true, true, true, fun k => decide (k.data.take 2 ≠ ['a', '/'])⟩

/-!
Helper lemmas.
-/

lemma str_empty_append (s : String) : "" ++ s = s := by
  cases s
  rfl

lemma pyJoin_empty_left (s : String) : pyJoin "" s = s := by
  unfold pyJoin
  by_cases hs : startsWithSlash s = true
  · rw [if_pos hs]
  · rw [if_neg hs]
    simp [str_empty_append]

lemma normalizeNewlines_append_pat (b : List Char) :
    ∀ a : List Char,
      normalizeNewlines (a ++ '\\' :: 'n' :: b) =
        normalizeNewlines a ++ '\n' :: normalizeNewlines b := by
  intro a
  induction a using normalizeNewlines.induct with
  | case1 => simp [normalizeNewlines]
  | case2 c => simp [normalizeNewlines]
  | case3 c d rest h ih =>
    obtain ⟨hc, hd⟩ := h
    subst hc; subst hd
    simp [normalizeNewlines, ih]
  | case4 c d rest h ih =>
    simp only [List.cons_append, normalizeNewlines, if_neg h]
    rw [List.cons_append] at ih
    simp [ih, h]

lemma normalizeNewlines_head (d : Char) (rest : List Char) :
    (normalizeNewlines (d :: rest)).head? = some '\n' ∨
      (normalizeNewlines (d :: rest)).head? = some d := by
  match rest with
  | [] => right; rfl
  | e :: rest' =>
    by_cases h : d = '\\' ∧ e = 'n'
    · left; simp [normalizeNewlines, h]
    · right; simp [normalizeNewlines, h]

lemma normalizeNewlines_no_pat :
    ∀ s u v : List Char, normalizeNewlines s ≠ u ++ '\\' :: 'n' :: v := by
  intro s
  induction s using normalizeNewlines.induct with
  | case1 =>
    intro u v h
    simp [normalizeNewlines] at h
  | case2 c =>
    intro u v h
    have hlen := congrArg List.length h
    simp [normalizeNewlines] at hlen
    omega
  | case3 c d rest h ih =>
    intro u v heq
    obtain ⟨hc, hd⟩ := h
    subst hc; subst hd
    simp only [normalizeNewlines, if_pos (And.intro rfl rfl)] at heq
    match u, heq with
    | [], heq => simp at heq
    | x :: u', heq =>
      rw [List.cons_append] at heq
      exact ih u' v (List.tail_eq_of_cons_eq heq)
  | case4 c d rest h ih =>
    intro u v heq
    simp only [normalizeNewlines, if_neg h] at heq
    match u, heq with
    | [], heq =>
      rw [List.nil_append] at heq
      have hc := List.head_eq_of_cons_eq heq
      have ht := List.tail_eq_of_cons_eq heq
      subst hc
      rcases normalizeNewlines_head d rest with hh | hh
      · rw [ht] at hh; simp at hh
      · rw [ht] at hh
        simp at hh
        exact h ⟨rfl, hh.symm⟩
    | x :: u', heq =>
      rw [List.cons_append] at heq
      exact ih u' v (List.tail_eq_of_cons_eq heq)

lemma walkUploads_leakedTemps (cfg : GcsConfig) (bn df fn : String) :
    ∀ (files : List (String × Bytes)) (t : Trace),
      ((walkUploads cfg bn df fn files t).1).leakedTemps = t.leakedTemps := by
  intro files
  induction files with
  | nil => intro t; rfl
  | cons f rest ih =>
    intro t
    obtain ⟨rel, bytes⟩ := f
    by_cases h : cfg.uploadOk (pyJoin3 df (pySplitextStr fn).1 rel) = true
    · simp only [walkUploads, if_pos h]
      rw [ih]
    · simp only [walkUploads, if_neg h]

lemma processZipItem_leakedTemps (cfg : GcsConfig) (bn df : String)
    (item : UploadedItem) (t : Trace) :
    (processZipItem cfg bn df item t).leakedTemps = t.leakedTemps := by
  rcases hx : item.extracted with _ | entries
  · simp [processZipItem, hx]
  · have hl := walkUploads_leakedTemps cfg bn df item.name (dirAfterExtract item entries) t
    rcases hw : walkUploads cfg bn df item.name (dirAfterExtract item entries) t with ⟨t2, r⟩
    rw [hw] at hl
    cases r with
    | error e => simp [processZipItem, hx, hw]; exact hl
    | ok u => simp [processZipItem, hx, hw]; exact hl

lemma processPlainItem_ok_leakedTemps (cfg : GcsConfig) (bn df : String)
    (item : UploadedItem) (nm : String) (t t2 : Trace) (u : Unit)
    (h : processPlainItem cfg bn df item nm t = (t2, .ok u)) :
    t2.leakedTemps = t.leakedTemps := by
  by_cases hu : cfg.uploadOk (pyJoin df item.name) = true
  · simp only [processPlainItem, if_pos hu] at h
    cases h
    rfl
  · simp only [processPlainItem, if_neg hu] at h
    cases h

lemma uploadLoop_ok_leakedTemps (cfg : GcsConfig) (bn df : String) :
    ∀ (items : List UploadedItem) (i : Nat) (t : Trace),
      (uploadLoop cfg bn df items i t).2 = .ok () →
      ((uploadLoop cfg bn df items i t).1).leakedTemps = t.leakedTemps := by
  intro items
  induction items with
  | nil => intro i t _; rfl
  | cons item rest ih =>
    intro i t hok
    by_cases hz : extLower item.name = ".zip"
    · simp only [uploadLoop, if_pos hz] at hok ⊢
      rw [ih _ _ hok, processZipItem_leakedTemps]
    · simp only [uploadLoop, if_neg hz] at hok ⊢
      rcases hp : processPlainItem cfg bn df item ("tmp" ++ toString i) t with ⟨t2, r⟩
      rw [hp] at hok
      cases r with
      | error e => simp at hok
      | ok u =>
        simp only at hok ⊢
        rw [ih _ _ hok, processPlainItem_ok_leakedTemps cfg bn df item _ t t2 u hp]

lemma uploadLoop_allzip (cfg : GcsConfig) (bn df : String) :
    ∀ (items : List UploadedItem) (i : Nat) (t : Trace),
      (∀ it ∈ items, extLower it.name = ".zip") →
      ((uploadLoop cfg bn df items i t).1).leakedTemps = t.leakedTemps ∧
        (uploadLoop cfg bn df items i t).2 = .ok () := by
  intro items
  induction items with
  | nil => intro i t _; exact ⟨rfl, rfl⟩
  | cons item rest ih =>
    intro i t hall
    have hz : extLower item.name = ".zip" := hall item (List.mem_cons_self item rest)
    have htail : ∀ it ∈ rest, extLower it.name = ".zip" :=
      fun it hit => hall it (List.mem_cons_of_mem item hit)
    simp only [uploadLoop, if_pos hz]
    obtain ⟨h1, h2⟩ := ih (i + 1) (processZipItem cfg bn df item t) htail
    exact ⟨by rw [h1, processZipItem_leakedTemps], h2⟩

lemma create_bucket_frame (cfg : GcsConfig) (bn : String) (t : Trace) :
    ((create_bucket_if_not_exists cfg bn t).1).leakedTemps = t.leakedTemps ∧
      ((create_bucket_if_not_exists cfg bn t).1).uploads = t.uploads := by
  unfold create_bucket_if_not_exists
  split
  · exact ⟨rfl, rfl⟩
  · split
    · exact ⟨rfl, rfl⟩
    · split
      · exact ⟨rfl, rfl⟩
      · exact ⟨rfl, rfl⟩

lemma foldl_upsert_head (entries : List (String × Bytes)) :
    ∀ (k0 : String) (v0 : Bytes) (l0 : List (String × Bytes)),
      ∃ v' l',
        entries.foldl (fun d e => upsert e.1 e.2 d) ((k0, v0) :: l0) = (k0, v') :: l' := by
  induction entries with
  | nil => intro k0 v0 l0; exact ⟨v0, l0, rfl⟩
  | cons e rest ih =>
    intro k0 v0 l0
    obtain ⟨k1, v1⟩ := e
    simp only [List.foldl_cons]
    by_cases h : k0 = k1
    · subst h
      simp only [upsert, if_pos rfl]
      exact ih k0 v1 l0
    · simp only [upsert, if_neg h]
      exact ih k0 v0 (upsert k1 v1 l0)

lemma dirAfterExtract_head (item : UploadedItem) (entries : List (String × Bytes)) :
    ∃ v' l', dirAfterExtract item entries = (item.name, v') :: l' := by
  unfold dirAfterExtract
  exact foldl_upsert_head entries item.name item.content []

/-!
Claim theorems.
-/

/-- C1: the claim says a zip item with N files produces exactly N remote
objects. At the failing input (item a.zip containing exactly one file
x.txt, destination folder d) the pipeline uploads two objects, not one:
the walk of the temporary directory includes the saved archive itself, so
d/a/a.zip (the raw archive bytes) is uploaded alongside d/a/x.txt. This
contradicts the comment above the walk in the source, which says only the
extracted files are uploaded. -/
theorem zip_branch_uploads_archive_itself :
    (upload_files_to_gcs cfgAllOk "b"
        [⟨"a.zip", [9, 9], some [("x.txt", [1, 2, 3])]⟩] "d").1.uploads =
      [("d/a/a.zip", [9, 9]), ("d/a/x.txt", [1, 2, 3])] ∧
    ((upload_files_to_gcs cfgAllOk "b"
        [⟨"a.zip", [9, 9], some [("x.txt", [1, 2, 3])]⟩] "d").1.uploads).length ≠ 1 :=
  ⟨by decide, by decide⟩

/-- C2 counterexample: the claim says no temporary file created during an
invocation remains afterwards, even when an upload raises. With one non-zip
item f.txt whose upload fails, the invocation aborts with a transfer error
and its temporary file tmp0 is still on local storage. -/
theorem failed_plain_upload_leaks_tempfile :
    (upload_files_to_gcs cfgUploadsFail "b" [⟨"f.txt", [1], none⟩] "").1.leakedTemps =
      ["tmp0"] ∧
    (upload_files_to_gcs cfgUploadsFail "b" [⟨"f.txt", [1], none⟩] "").2 =
      .error .transferError :=
  ⟨by decide, rfl⟩

/-- C2 (amended): when the invocation returns normally no temporary file or
directory remains, and zip items never leak temporaries in any case (their
temporary directory is removed on every exit path); only a non-zip item
whose upload raises leaves its temporary file behind. -/
theorem cleanup_holds_unless_plain_upload_fails
    (cfg : GcsConfig) (bn : String) (files : List UploadedItem) (df : String)
    (h : (upload_files_to_gcs cfg bn files df).2 = .ok () ∨
      ∀ it ∈ files, extLower it.name = ".zip") :
    (upload_files_to_gcs cfg bn files df).1.leakedTemps = [] := by
  unfold upload_files_to_gcs at h ⊢
  have hf := create_bucket_frame cfg bn emptyTrace
  rcases hcb : create_bucket_if_not_exists cfg bn emptyTrace with ⟨t, r⟩
  rw [hcb] at h hf
  cases r with
  | error e => exact hf.1
  | ok bk =>
    rcases h with h | h
    · rw [uploadLoop_ok_leakedTemps cfg bn df files 0 t h]
      exact hf.1
    · rw [(uploadLoop_allzip cfg bn df files 0 t h).1]
      exact hf.1

/-- C2 witness: a successful invocation with one zip item and one plain
item leaves no temporary file behind. -/
theorem cleanup_holds_witness :
    (upload_files_to_gcs cfgAllOk "b"
        [⟨"a.zip", [9, 9], some [("x.txt", [1, 2, 3])]⟩, ⟨"f.txt", [1], none⟩]
        "d").1.leakedTemps = [] :=
  cleanup_holds_unless_plain_upload_fails cfgAllOk "b"
    [⟨"a.zip", [9, 9], some [("x.txt", [1, 2, 3])]⟩, ⟨"f.txt", [1], none⟩] "d"
    (Or.inl (by rfl))

/-- C3 counterexample: the claim says a transfer error is not caught
anywhere, propagates out of the pipeline, and aborts the remaining uploads.
With every upload whose key lies under a/ failing, the batch
[a.zip, good.txt] finishes normally (no exception escapes), reports the
failure as the zip item's generic item-level error, and still uploads
good.txt: inside a zip item's walk a TransferError is caught by the except
clause of the zip branch rather than propagating. -/
theorem zip_walk_transfer_error_is_caught :
    (upload_files_to_gcs cfgFailUnderA "b"
        [⟨"a.zip", [9, 9], some [("x.txt", [1, 2, 3])]⟩, ⟨"good.txt", [7], none⟩]
        "").2 = .ok () ∧
    (upload_files_to_gcs cfgFailUnderA "b"
        [⟨"a.zip", [9, 9], some [("x.txt", [1, 2, 3])]⟩, ⟨"good.txt", [7], none⟩]
        "").1.uploads = [("good.txt", [7])] ∧
    (upload_files_to_gcs cfgFailUnderA "b"
        [⟨"a.zip", [9, 9], some [("x.txt", [1, 2, 3])]⟩, ⟨"good.txt", [7], none⟩]
        "").1.msgs =
      [.info "Bucket b already exists.",
        .error "Error processing zip file a.zip",
        .write "Uploaded good.txt to GCS bucket b"] :=
  ⟨rfl, by decide, by decide⟩

/-- C3 (amended): a TransferError is not separately caught. On a non-zip
item it propagates out of the pipeline, aborting the loop (and leaking that
item's temporary file); inside a zip item's walk it is caught by the zip
branch's generic handler, which aborts the remaining files of that
archive's walk, reports one item-level error, and continues with the
subsequent items. The zip case is stated for a failure at the first walked
file, which is always the saved archive itself. -/
theorem transfer_error_asymmetry
    (cfg : GcsConfig) (bn df : String) (item : UploadedItem)
    (rest : List UploadedItem) (i : Nat) (t : Trace) :
    (extLower item.name ≠ ".zip" →
      cfg.uploadOk (pyJoin df item.name) = false →
      uploadLoop cfg bn df (item :: rest) i t =
        ({ t with leakedTemps := t.leakedTemps ++ ["tmp" ++ toString i] },
          .error .transferError)) ∧
    (extLower item.name = ".zip" →
      ∀ entries, item.extracted = some entries →
      cfg.uploadOk (pyJoin3 df (pySplitextStr item.name).1 item.name) = false →
      uploadLoop cfg bn df (item :: rest) i t =
        uploadLoop cfg bn df rest (i + 1)
          { t with
            msgs := t.msgs ++ [.error ("Error processing zip file " ++ item.name)] }) := by
  constructor
  · intro h1 h2
    simp [uploadLoop, h1, processPlainItem, h2]
  · intro hz entries hx hfail
    obtain ⟨v', l', hd⟩ := dirAfterExtract_head item entries
    simp only [uploadLoop, if_pos hz]
    have hpz : processZipItem cfg bn df item t =
        { t with msgs := t.msgs ++ [.error ("Error processing zip file " ++ item.name)] } := by
      simp [processZipItem, hx, hd, walkUploads, hfail]
    rw [hpz]

/-- C3 witness: both branches instantiated; one plain item whose upload
fails aborts the loop with a transfer error and a leaked temporary, while
one zip item whose first walked upload fails turns into an item-level error
and the loop goes on. -/
theorem transfer_error_asymmetry_witness :
    uploadLoop cfgUploadsFail "b" "" [⟨"f.txt", [1], none⟩] 0 emptyTrace =
      ({ emptyTrace with leakedTemps := ["tmp0"] }, .error .transferError) ∧
    uploadLoop cfgUploadsFail "b" "" [⟨"a.zip", [9], some []⟩] 0 emptyTrace =
      uploadLoop cfgUploadsFail "b" "" [] 1
        { emptyTrace with msgs := [.error "Error processing zip file a.zip"] } :=
  ⟨(transfer_error_asymmetry cfgUploadsFail "b" "" ⟨"f.txt", [1], none⟩ [] 0
      emptyTrace).1 (by decide) rfl,
    (transfer_error_asymmetry cfgUploadsFail "b" "" ⟨"a.zip", [9], some []⟩ [] 0
      emptyTrace).2 (by decide) [] rfl rfl⟩

/-- C4: a zip item whose extraction fails yields exactly one item-level
error line, zero uploads from that item, and the loop continues unchanged
with every subsequent item of the batch. -/
theorem corrupt_zip_isolated_and_batch_continues
    (cfg : GcsConfig) (bn df : String) (item : UploadedItem)
    (rest : List UploadedItem) (i : Nat) (t : Trace)
    (hz : extLower item.name = ".zip") (hx : item.extracted = none) :
    uploadLoop cfg bn df (item :: rest) i t =
      uploadLoop cfg bn df rest (i + 1)
        { t with msgs := t.msgs ++ [.error ("Error processing zip file " ++ item.name)] } := by
  simp [uploadLoop, hz, processZipItem, hx]

/-- C4 witness: the batch [corrupt.zip, good.txt] turns the corrupt item
into one error line and continues with good.txt. -/
theorem corrupt_zip_isolated_witness :
    uploadLoop cfgAllOk "b" "" [⟨"corrupt.zip", [5], none⟩, ⟨"good.txt", [7], none⟩]
        0 emptyTrace =
      uploadLoop cfgAllOk "b" "" [⟨"good.txt", [7], none⟩] 1
        { emptyTrace with msgs := [.error "Error processing zip file corrupt.zip"] } :=
  corrupt_zip_isolated_and_batch_continues cfgAllOk "b" "" ⟨"corrupt.zip", [5], none⟩
    [⟨"good.txt", [7], none⟩] 0 emptyTrace (by decide) rfl

/-- C5: when the existence check call succeeds and creation can succeed,
the ensurer issues a create call exactly when the check reports the bucket
absent (one creation when absent, none when present), and in both cases
returns a handle whose name equals the input. -/
theorem ensure_bucket_creates_iff_absent
    (cfg : GcsConfig) (name : String) (t : Trace)
    (hc : cfg.existsCheckOk = true) (hk : cfg.createOk = true) :
    ((create_bucket_if_not_exists cfg name t).1).creates =
      (if cfg.bucketExists then t.creates else t.creates ++ [name]) ∧
    (create_bucket_if_not_exists cfg name t).2 = .ok ⟨name⟩ := by
  cases hbe : cfg.bucketExists <;>
    simp [create_bucket_if_not_exists, hc, hk, hbe]

/-- C5 witness: starting from an empty trace with the bucket absent, one
creation is recorded and the returned handle is named after the input. -/
theorem ensure_bucket_creates_iff_absent_witness :
    ((create_bucket_if_not_exists cfgAllOk "b" emptyTrace).1).creates =
      (if cfgAllOk.bucketExists then emptyTrace.creates else emptyTrace.creates ++ ["b"]) ∧
    (create_bucket_if_not_exists cfgAllOk "b" emptyTrace).2 = .ok ⟨"b"⟩ :=
  ensure_bucket_creates_iff_absent cfgAllOk "b" emptyTrace rfl rfl

/-- C6: a non-zip item whose upload succeeds contributes exactly one remote
object, keyed by joining the destination folder with the filename and
carrying the item's bytes, and the loop continues; for a nonempty folder
without trailing separator and a relative filename the key is literally
dest_folder/f.ext. -/
theorem plain_item_single_object_upload
    (cfg : GcsConfig) (bn df : String) (item : UploadedItem)
    (rest : List UploadedItem) (i : Nat) (t : Trace)
    (hnz : extLower item.name ≠ ".zip")
    (hok : cfg.uploadOk (pyJoin df item.name) = true) :
    uploadLoop cfg bn df (item :: rest) i t =
      uploadLoop cfg bn df rest (i + 1)
        { t with
          uploads := t.uploads ++ [(pyJoin df item.name, item.content)],
          msgs := t.msgs ++
            [.write ("Uploaded " ++ pyJoin df item.name ++ " to GCS bucket " ++ bn)] } ∧
    (df ≠ "" → endsWithSlash df = false → startsWithSlash item.name = false →
      pyJoin df item.name = df ++ "/" ++ item.name) := by
  constructor
  · simp [uploadLoop, hnz, processPlainItem, hok]
  · intro h1 h2 h3
    simp [pyJoin, h1, h2, h3]

/-- C6 witness: the plain item f.txt with destination folder d becomes the
single object d/f.txt holding its bytes. -/
theorem plain_item_single_object_upload_witness :
    uploadLoop cfgAllOk "b" "d" [⟨"f.txt", [1], none⟩] 0 emptyTrace =
      uploadLoop cfgAllOk "b" "d" [] 1
        { emptyTrace with
          uploads := [("d/f.txt", [1])],
          msgs := [.write "Uploaded d/f.txt to GCS bucket b"] } ∧
    pyJoin "d" "f.txt" = "d" ++ "/" ++ "f.txt" :=
  ⟨((plain_item_single_object_upload cfgAllOk "b" "d" ⟨"f.txt", [1], none⟩ [] 0
      emptyTrace (by decide) rfl).1),
    ((plain_item_single_object_upload cfgAllOk "b" "d" ⟨"f.txt", [1], none⟩ [] 0
      emptyTrace (by decide) rfl).2 (by decide) rfl rfl)⟩

/-- C7: when the existence check call fails, or the bucket is absent and
the creation call fails, the whole operation aborts with a bucket error
before any item is processed: no object is uploaded from the batch. -/
theorem bucket_error_aborts_whole_operation
    (cfg : GcsConfig) (bn : String) (files : List UploadedItem) (df : String)
    (h : cfg.existsCheckOk = false ∨ cfg.bucketExists = false ∧ cfg.createOk = false) :
    (upload_files_to_gcs cfg bn files df).2 = .error .bucketError ∧
    (upload_files_to_gcs cfg bn files df).1.uploads = [] := by
  rcases h with h | ⟨h1, h2⟩
  · simp [upload_files_to_gcs, create_bucket_if_not_exists, h, emptyTrace]
  · cases hc : cfg.existsCheckOk <;>
      simp [upload_files_to_gcs, create_bucket_if_not_exists, h1, h2, hc, emptyTrace]

/-- C7 witness: with the existence check failing, a nonempty batch uploads
nothing and the operation ends with a bucket error. -/
theorem bucket_error_aborts_whole_operation_witness :
    (upload_files_to_gcs cfgCheckFails "b" [⟨"f.txt", [1], none⟩] "d").2 =
      .error .bucketError ∧
    (upload_files_to_gcs cfgCheckFails "b" [⟨"f.txt", [1], none⟩] "d").1.uploads = [] :=
  bucket_error_aborts_whole_operation cfgCheckFails "b" [⟨"f.txt", [1], none⟩] "d"
    (Or.inl rfl)

/-- C8: with an empty destination folder the derived keys omit the empty
segment: the non-zip key is the bare filename (no leading separator), and
the zip entry key is archive_basename/relative_path with single separators,
for a nonempty basename without trailing separator and a relative entry
path. -/
theorem empty_dest_folder_key_has_no_extra_separator
    (n base rel : String)
    (h1 : base ≠ "") (h2 : endsWithSlash base = false) (h3 : startsWithSlash rel = false) :
    pyJoin "" n = n ∧ pyJoin3 "" base rel = base ++ "/" ++ rel := by
  constructor
  · exact pyJoin_empty_left n
  · unfold pyJoin3
    rw [pyJoin_empty_left base]
    simp [pyJoin, h1, h2, h3]

/-- C8 witness: with an empty destination folder, f.txt is keyed f.txt and
the entry x.txt of archive a.zip is keyed a/x.txt. -/
theorem empty_dest_folder_key_witness :
    pyJoin "" "f.txt" = "f.txt" ∧ pyJoin3 "" "a" "x.txt" = "a" ++ "/" ++ "x.txt" :=
  empty_dest_folder_key_has_no_extra_separator "f.txt" "a" "x.txt" (by decide) rfl rfl

/-- C9: for any credential record whose private key contains the literal
two character sequence backslash n (exhibited by the decomposition
hypothesis), the normalization step leaves every other field unchanged,
rewrites that occurrence (and, recursively, all others) into an actual line
break, and leaves no occurrence of the two character sequence in the
result. -/
theorem private_key_newline_normalization
    (c : CredRecord) (a b : List Char)
    (h : c.private_key.data = a ++ '\\' :: 'n' :: b) :
    (fix_private_key c).others = c.others ∧
    (fix_private_key c).private_key.data =
      normalizeNewlines a ++ '\n' :: normalizeNewlines b ∧
    ∀ u v : List Char, (fix_private_key c).private_key.data ≠ u ++ '\\' :: 'n' :: v := by
  refine ⟨rfl, ?_, ?_⟩
  · show normalizeNewlines c.private_key.data = _
    rw [h]
    exact normalizeNewlines_append_pat b a
  · intro u v
    show normalizeNewlines c.private_key.data ≠ _
    exact normalizeNewlines_no_pat c.private_key.data u v

/-- C9 witness: the record with private key x backslash n y keeps its other
fields and gets the escape rewritten to a newline. -/
theorem private_key_newline_normalization_witness :
    (fix_private_key ⟨"x\\ny", [("client_email", "e")]⟩).others =
      [("client_email", "e")] ∧
    (fix_private_key ⟨"x\\ny", [("client_email", "e")]⟩).private_key.data =
      normalizeNewlines ['x'] ++ '\n' :: normalizeNewlines ['y'] :=
  ⟨(private_key_newline_normalization ⟨"x\\ny", [("client_email", "e")]⟩ ['x'] ['y']
      rfl).1,
    (private_key_newline_normalization ⟨"x\\ny", [("client_email", "e")]⟩ ['x'] ['y']
      rfl).2.1⟩

/-- C10: when the Upload trigger fires with an empty bucket name or an
empty file selection, exactly one error line is shown and no remote
operation happens: no existence check, no creation, no upload; the handler
returns normally. -/
theorem empty_inputs_report_error_without_remote_calls
    (cfg : GcsConfig) (bn df : String) (files : List UploadedItem)
    (h : bn = "" ∨ files = []) :
    (main cfg bn df files).1.msgs =
      [Msg.error (if bn = "" then "Please enter a bucket name."
        else "Please select files to upload.")] ∧
    (main cfg bn df files).1.existsChecks = 0 ∧
    (main cfg bn df files).1.creates = [] ∧
    (main cfg bn df files).1.uploads = [] ∧
    (main cfg bn df files).2 = .ok () := by
  by_cases hb : bn = ""
  · subst hb
    exact ⟨rfl, rfl, rfl, rfl, rfl⟩
  · have hf : files = [] := h.resolve_left hb
    subst hf
    refine ⟨?_, ?_, ?_, ?_, ?_⟩ <;> simp [main, hb, emptyTrace]

/-- C10 witness: an empty bucket name with one selected file produces the
error line and an empty remote trace. -/
theorem empty_inputs_report_error_witness :
    (main cfgAllOk "" "d" [⟨"f.txt", [1], none⟩]).1.msgs =
      [Msg.error (if "" = "" then "Please enter a bucket name."
        else "Please select files to upload.")] ∧
    (main cfgAllOk "" "d" [⟨"f.txt", [1], none⟩]).1.existsChecks = 0 ∧
    (main cfgAllOk "" "d" [⟨"f.txt", [1], none⟩]).1.creates = [] ∧
    (main cfgAllOk "" "d" [⟨"f.txt", [1], none⟩]).1.uploads = [] ∧
    (main cfgAllOk "" "d" [⟨"f.txt", [1], none⟩]).2 = .ok () :=
  empty_inputs_report_error_without_remote_calls cfgAllOk "" "d"
    [⟨"f.txt", [1], none⟩] (Or.inl rfl)

end UploadToGcs
